import Mathlib

/-!
# Calblend provider-sync engine: verification of the spec against the code

Shallow embedding of the calblend repository (TypeScript SDK under
`packages/node`, Rust core declared but absent from the source tree).
The TypeScript functions `parseWebhookHeaders`, `needsRenewal`, the
`TokenData` interface and the `createClient` token-storage adapter are
translated directly from `packages/node/src/index.ts` and
`packages/node/src/providers/google.ts`.  The Rust core components
(TokenManager, HttpGateway, CacheLayer, WebhookProcessor) exist in the
repository only as a crate manifest, so they are modelled from the
specification text, with each such definition marked
`Modelled from the spec:`.
-/

namespace Calblend

/-! ## TokenData (packages/node/src/index.ts, lines 61-67)

The TypeScript interface is
`{ access_token: string; refresh_token?: string; expires_at?: string;
   token_type: string; scope?: string }`.
Required fields become `String`, optional fields become `Option String`. -/

structure TokenData where
  access_token : String
  refresh_token : Option String := none
  expires_at : Option String := none
  token_type : String
  scope : Option String := none
  deriving Repr, DecidableEq

/-! ## needsRenewal (packages/node/src/providers/google.ts, lines 343-347)

```ts
static needsRenewal(channel: WatchChannel): boolean {
  const expiration = new Date(channel.expiration);
  const hoursUntilExpiry = (expiration.getTime() - Date.now()) / (1000 * 60 * 60);
  return hoursUntilExpiry < 24;
}
```
`expiration.getTime()` and `Date.now()` are integer millisecond instants;
the division is modelled exactly over `ℚ` (at these magnitudes IEEE-754
double division is exact enough that the comparison against 24 agrees
with the rational one on every integer input). -/

def needsRenewal (expirationMs nowMs : ℤ) : Bool :=
  decide ((((expirationMs - nowMs : ℤ) : ℚ) / (1000 * 60 * 60)) < 24)

/-! ## Token refresh (TokenManager)

Modelled from the spec: the Rust `calblend-core` crate that implements
TokenManager is not present in the source tree (only its `Cargo.toml`).
The spec states: "a refresh must never drop a previously known
refreshToken if the provider omits one in the refresh response — the
manager retains the prior value". -/

/-- An OAuth token-endpoint refresh response; `refresh_token` is optional
because providers may omit it on refresh. -/
structure RefreshResponse where
  access_token : String
  refresh_token : Option String := none
  expires_at : Option String := none
  token_type : String
  scope : Option String := none
  deriving Repr, DecidableEq

/-- Modelled from the spec: TokenManager's application of a refresh
response to the stored `TokenData`.  The new stored token takes every
field from the response, except that an omitted `refresh_token` retains
the previously stored value. -/
def applyRefresh (stored : TokenData) (resp : RefreshResponse) : TokenData :=
  { access_token := resp.access_token
    refresh_token :=
      match resp.refresh_token with
      | some r => some r
      | none => stored.refresh_token
    expires_at := resp.expires_at
    token_type := resp.token_type
    scope := resp.scope }

/-! ## parseWebhookHeaders (packages/node/src/providers/google.ts, lines 314-338)

```ts
static parseWebhookHeaders(headers: Record<string, string | string[] | undefined>): WebhookNotification {
  const getHeader = (name: string): string | undefined => {
    const value = headers[name.toLowerCase()];
    return Array.isArray(value) ? value[0] : value;
  };
  const channelId = getHeader('x-goog-channel-id');
  const resourceId = getHeader('x-goog-resource-id');
  const resourceState = getHeader('x-goog-resource-state');
  const resourceUri = getHeader('x-goog-resource-uri');
  if (!channelId || !resourceId || !resourceState || !resourceUri) {
    throw new Error('Missing required Google webhook headers');
  }
  return { channelId, channelToken: getHeader('x-goog-channel-token'), ... };
}
```
A header value is a string or an array of strings; a record entry
explicitly set to `undefined` behaves exactly like an absent entry, so
the record is an association list of present values.  JavaScript `!s`
on a string is true exactly for the empty string, and `value[0]` of an
empty array is `undefined`. -/

inductive HeaderValue where
  | str (v : String)
  | arr (vs : List String)
  deriving Repr, DecidableEq

abbrev Headers := List (String × HeaderValue)

/-- ASCII lowercasing of one character, as JavaScript `toLowerCase`
acts on the ASCII header names the parser looks up. -/
def jsLowerChar (c : Char) : Char :=
  if 'A' ≤ c ∧ c ≤ 'Z' then Char.ofNat (c.toNat + 32) else c

/-- `name.toLowerCase()` restricted to ASCII, which covers every header
name `parseWebhookHeaders` passes to it. -/
def jsToLowerCase (s : String) : String := ⟨s.data.map jsLowerChar⟩

def getHeader (headers : Headers) (name : String) : Option String :=
  match headers.lookup (jsToLowerCase name) with
  | none => none
  | some (.str v) => some v
  | some (.arr vs) => vs.head?

structure WebhookNotification where
  channelId : String
  channelToken : Option String := none
  channelExpiration : Option String := none
  resourceId : String
  resourceState : String
  resourceUri : String
  messageNumber : Option String := none
  deriving Repr, DecidableEq

/-- JavaScript falsiness of a `string | undefined` value: `undefined`
and the empty string are falsy. -/
def jsFalsy : Option String → Bool
  | none => true
  | some s => s.isEmpty

def parseWebhookHeaders (headers : Headers) : Except String WebhookNotification :=
  if jsFalsy (getHeader headers "x-goog-channel-id") ||
      jsFalsy (getHeader headers "x-goog-resource-id") ||
      jsFalsy (getHeader headers "x-goog-resource-state") ||
      jsFalsy (getHeader headers "x-goog-resource-uri") then
    .error "Missing required Google webhook headers"
  else
    .ok { channelId := (getHeader headers "x-goog-channel-id").getD ""
          channelToken := getHeader headers "x-goog-channel-token"
          channelExpiration := getHeader headers "x-goog-channel-expiration"
          resourceId := (getHeader headers "x-goog-resource-id").getD ""
          resourceState := (getHeader headers "x-goog-resource-state").getD ""
          resourceUri := (getHeader headers "x-goog-resource-uri").getD ""
          messageNumber := getHeader headers "x-goog-message-number" }

/-- Concrete header record for the counterexample to C1: all four
required headers are present, but the channel id is the empty string. -/
def emptyChannelIdHeaders : Headers :=
  [("x-goog-channel-id", .str ""),
   ("x-goog-resource-id", .str "res-1"),
   ("x-goog-resource-state", .str "exists"),
   ("x-goog-resource-uri", .str "https://example.com/r")]

/-- Concrete header record with all required headers present and
nonempty; the resource uri arrives as an array and the channel
expiration header is absent. -/
def okHeaders : Headers :=
  [("x-goog-channel-id", .str "c1"),
   ("x-goog-channel-token", .str "tok"),
   ("x-goog-resource-id", .str "r1"),
   ("x-goog-resource-state", .str "exists"),
   ("x-goog-resource-uri", .arr ["u1", "u2"]),
   ("x-goog-message-number", .str "5")]

/-! ## HttpGateway (calblend-core, absent from the source tree)

Modelled from the spec: `execute(request, retryPolicy) -> Response`
retries on network-level failures, 5xx responses and 429 responses,
fails with a typed error after exhausting `maxRetries` retries, and
fails immediately on non-retryable 4xx.  Backoff delays are irrelevant
to the retry budget and are not modelled. -/

/-- Outcome of one HTTP attempt: a network-level failure or a response
with a status code. -/
inductive AttemptOutcome where
  | netFail
  | status (code : Nat)
  deriving Repr, DecidableEq

/-- Modelled from the spec: retries trigger on network-level failures,
5xx responses, and 429 responses. -/
def retryable : AttemptOutcome → Bool
  | .netFail => true
  | .status c => (500 ≤ c && c < 600) || c == 429

def isSuccess : AttemptOutcome → Bool
  | .netFail => false
  | .status c => 200 ≤ c && c < 300

/-- The typed error taxonomy relevant to `execute`. -/
inductive GatewayError where
  | rateLimit
  | network
  | provider (code : Nat)
  deriving Repr, DecidableEq

/-- Modelled from the spec: error classification of a failed attempt. -/
def classifyError : AttemptOutcome → GatewayError
  | .netFail => .network
  | .status c => if c == 429 then .rateLimit else if 500 ≤ c then .network else .provider c

def statusOf : AttemptOutcome → Nat
  | .netFail => 0
  | .status c => c

/-- Modelled from the spec: the retry loop of `execute`.  `endpoint i`
is the outcome of the i-th attempt; the result pairs the final outcome
with the number of attempts actually made. -/
def executeAux (endpoint : Nat → AttemptOutcome) :
    Nat → Nat → Except GatewayError Nat × Nat
  | attempt, 0 =>
    (if isSuccess (endpoint attempt) then .ok (statusOf (endpoint attempt))
     else .error (classifyError (endpoint attempt)), 1)
  | attempt, retriesLeft + 1 =>
    if isSuccess (endpoint attempt) then (.ok (statusOf (endpoint attempt)), 1)
    else if retryable (endpoint attempt) then
      let r := executeAux endpoint (attempt + 1) retriesLeft
      (r.1, r.2 + 1)
    else (.error (classifyError (endpoint attempt)), 1)

/-- Modelled from the spec: `execute` with a retry budget of
`maxRetries` retries beyond the initial attempt. -/
def execute (endpoint : Nat → AttemptOutcome) (maxRetries : Nat) :
    Except GatewayError Nat × Nat :=
  executeAux endpoint 0 maxRetries

/-! ## CacheLayer (calblend-core, absent from the source tree)

Modelled from the spec: a TTL-keyed cache where `get` returns a value
only if unexpired (`now < storedAt + ttl`), `put` stores or replaces,
and `invalidate` removes all entries in a calendar scope. -/

structure CacheEntry (α : Type) where
  value : α
  storedAt : Nat
  ttl : Nat
  deriving Repr, DecidableEq

/-- A cache is an association list keyed by `κ`; `put` replaces the
entry for its key wholesale. -/
def CacheLayer (κ α : Type) := List (κ × CacheEntry α)

/-- Modelled from the spec: an entry is servable iff
`now < storedAt + ttl`. -/
def servable (e : CacheEntry α) (now : Nat) : Bool :=
  decide (now < e.storedAt + e.ttl)

/-- Modelled from the spec: `get(key)` returns the stored value only
while it is servable. -/
def cacheGet [BEq κ] (c : CacheLayer κ α) (k : κ) (now : Nat) : Option α :=
  match c.lookup k with
  | some e => if servable e now then some e.value else none
  | none => none

/-- Modelled from the spec: `put(key, value, ttl)` stores or replaces
the entry for the key. -/
def cachePut [BEq κ] (c : CacheLayer κ α) (k : κ) (v : α) (ttl now : Nat) :
    CacheLayer κ α :=
  (k, ⟨v, now, ttl⟩) :: c.filter (fun p => !(p.1 == k))

/-! ## SyncEngine mutations (calblend-core, absent from the source tree)

Modelled from the spec: cache keys are fingerprints of
(provider, operation, normalized parameters); all write operations call
the provider directly and then invalidate the affected calendar's cache
scope unconditionally, even on a partial-success ambiguous response. -/

structure CacheKey where
  provider : String
  operation : String
  calendarId : String
  params : String
  deriving Repr, DecidableEq

/-- Modelled from the spec: `invalidate` removes all entries whose key
matches the given calendar scope. -/
def invalidateCalendar (c : CacheLayer CacheKey α) (cal : String) :
    CacheLayer CacheKey α :=
  c.filter (fun p => !(p.1.calendarId == cal))

/-- The provider's answer to a write: confirmed success or an ambiguous
partial-success response. -/
inductive MutationOutcome where
  | success
  | ambiguous
  deriving Repr, DecidableEq

/-- The SyncEngine state the mutation claims need: its cache. -/
structure SyncState (α : Type) where
  cache : CacheLayer CacheKey α

/-- Modelled from the spec: `createEvent` calls the provider (its
response is the `r` argument) and invalidates the calendar's cache
scope unconditionally. -/
def createEvent (st : SyncState α) (cal : String) (r : MutationOutcome) :
    SyncState α × MutationOutcome :=
  ({ cache := invalidateCalendar st.cache cal }, r)

/-- Modelled from the spec: `updateEvent`, as `createEvent`. -/
def updateEvent (st : SyncState α) (cal eventId : String) (r : MutationOutcome) :
    SyncState α × MutationOutcome :=
  ({ cache := invalidateCalendar st.cache cal }, r)

/-- Modelled from the spec: `deleteEvent`, as `createEvent`. -/
def deleteEvent (st : SyncState α) (cal eventId : String) (r : MutationOutcome) :
    SyncState α × MutationOutcome :=
  ({ cache := invalidateCalendar st.cache cal }, r)

/-! ## WebhookProcessor deduplication (native `processNotification`,
absent from the source tree)

Modelled from the spec: each (channelId, messageNumber) pair is tracked
in a bounded recent-notifications set; a repeat delivery is a no-op
returning an empty result; a `sync` notification returns empty; an
`exists` notification returns the events found by the delta fetch
(the `fetched` argument). -/

structure ProcessorState where
  recent : List (String × Option String)
  maxRecent : Nat
  deriving Repr, DecidableEq

/-- Modelled from the spec: notification handling with deduplication. -/
def processNotification (st : ProcessorState) (n : WebhookNotification)
    (fetched : List α) : ProcessorState × List α :=
  if (n.channelId, n.messageNumber) ∈ st.recent then (st, [])
  else
    let st' := { st with
      recent := ((n.channelId, n.messageNumber) :: st.recent).take st.maxRecent }
    if n.resourceState == "sync" then (st', []) else (st', fetched)

/-! ## TokenManager single-flight refresh (calblend-core, absent from
the source tree)

Modelled from the spec: refresh for a given (provider, account) key is
single-flight; concurrent callers requesting a token for the same key
while a refresh is in progress await the same in-flight refresh rather
than issuing duplicate refresh calls.  The state below is the state for
one key; `awaiting` counts the callers attached to the single in-flight
refresh, whose shared result every one of them receives. -/

structure TokenManagerState where
  inflight : Bool
  refreshCalls : Nat
  awaiting : Nat
  deriving Repr, DecidableEq

/-- Modelled from the spec: one `getValidToken` call arriving for a key
whose stored token is expiring.  If a refresh is in flight the caller
joins it; otherwise it issues the one upstream refresh call and awaits
it. -/
def getValidTokenArrive (st : TokenManagerState) : TokenManagerState :=
  if st.inflight then { st with awaiting := st.awaiting + 1 }
  else { inflight := true, refreshCalls := st.refreshCalls + 1, awaiting := 1 }

/-- `n` concurrent `getValidToken` calls for the same key, arriving
while the refresh (if any) is still in progress. -/
def arrivals (st : TokenManagerState) : Nat → TokenManagerState
  | 0 => st
  | n + 1 => getValidTokenArrive (arrivals st n)

/-- The quiescent state of a key: no refresh in flight, none issued. -/
def freshKeyState : TokenManagerState := ⟨false, 0, 0⟩

/-! ## The createClient token-storage adapter (packages/node/src/index.ts,
lines 79-96)

```ts
const jsTokenStorage = {
  getToken: async (provider) => {
    const token = await config.tokenStorage.getToken(provider);
    return token ? JSON.stringify(token) : null;
  },
  saveToken: async (provider, tokenJson: string) => {
    const token = JSON.parse(tokenJson) as TokenData;
    await config.tokenStorage.saveToken(provider, token);
  },
  ...
};
```
`JSON.stringify` on a `TokenData` emits a JSON object whose members are
the present fields in declaration order, each value a JSON string
quoted per ECMA-262 QuoteJSONString (escaping the quote, the backslash,
and control characters); absent optional fields are omitted.
`JSON.parse` is modelled on the fragment of JSON that such objects
inhabit: an object of string-valued members; the unchecked
`as TokenData` cast is modelled as reading the interface's fields out
of the parsed object. -/

/-- Lower-case hexadecimal digit, as `JSON.stringify` emits in
`\u00XX` escapes. -/
def hexDigit (n : Nat) : Char :=
  if n < 10 then Char.ofNat (48 + n) else Char.ofNat (87 + n)

/-- ECMA-262 QuoteJSONString escaping of one character. -/
def escapeChar (c : Char) : List Char :=
  if c = '"' then ['\\', '"']
  else if c = '\\' then ['\\', '\\']
  else if c = '\x08' then ['\\', 'b']
  else if c = '\x09' then ['\\', 't']
  else if c = '\x0a' then ['\\', 'n']
  else if c = '\x0c' then ['\\', 'f']
  else if c = '\x0d' then ['\\', 'r']
  else if c.toNat < 32 then
    ['\\', 'u', '0', '0', hexDigit (c.toNat / 16), hexDigit (c.toNat % 16)]
  else [c]

def escapeList : List Char → List Char
  | [] => []
  | c :: cs => escapeChar c ++ escapeList cs

/-- A quoted JSON string literal, as a character list. -/
def quoteChars (s : String) : List Char :=
  '"' :: escapeList s.data ++ ['"']

/-- Numeric value of a hexadecimal digit character. -/
def hexVal (c : Char) : Option Nat :=
  if 48 ≤ c.toNat ∧ c.toNat ≤ 57 then some (c.toNat - 48)
  else if 97 ≤ c.toNat ∧ c.toNat ≤ 102 then some (c.toNat - 87)
  else if 65 ≤ c.toNat ∧ c.toNat ≤ 70 then some (c.toNat - 55)
  else none

/-- Prefix a character onto the string part of a parse result. -/
def consCont (c : Char) : Option (List Char × List Char) → Option (List Char × List Char)
  | none => none
  | some (s, r) => some (c :: s, r)

/-- Parse the body of a JSON string literal (the opening quote already
consumed), returning the decoded characters and the remaining input
after the closing quote. -/
def parseStrAux : List Char → Option (List Char × List Char)
  | [] => none
  | '"' :: rest => some ([], rest)
  | '\\' :: 'u' :: h1 :: h2 :: h3 :: h4 :: rs =>
    match hexVal h1, hexVal h2, hexVal h3, hexVal h4 with
    | some v1, some v2, some v3, some v4 =>
      consCont (Char.ofNat (((v1 * 16 + v2) * 16 + v3) * 16 + v4)) (parseStrAux rs)
    | _, _, _, _ => none
  | '\\' :: e :: rs =>
    if e = '"' then consCont '"' (parseStrAux rs)
    else if e = '\\' then consCont '\\' (parseStrAux rs)
    else if e = '/' then consCont '/' (parseStrAux rs)
    else if e = 'b' then consCont '\x08' (parseStrAux rs)
    else if e = 't' then consCont '\x09' (parseStrAux rs)
    else if e = 'n' then consCont '\x0a' (parseStrAux rs)
    else if e = 'f' then consCont '\x0c' (parseStrAux rs)
    else if e = 'r' then consCont '\x0d' (parseStrAux rs)
    else none
  | ['\\'] => none
  | c :: rest => consCont c (parseStrAux rest)

/-- One `"key":"value"` member, rendered. -/
def renderField (k v : String) : List Char :=
  quoteChars k ++ ':' :: quoteChars v

def sepByComma : List (List Char) → List Char
  | [] => []
  | [x] => x
  | x :: xs => x ++ ',' :: sepByComma xs

/-- The members of a nonempty object, rendered. -/
def fieldsChars (l : List (String × String)) : List Char :=
  sepByComma (l.map fun p => renderField p.1 p.2)

/-- The present fields of a `TokenData`, in interface declaration
order, as `JSON.stringify` enumerates them. -/
def tokenFields (t : TokenData) : List (String × String) :=
  ("access_token", t.access_token) ::
    ((match t.refresh_token with
      | some v => [("refresh_token", v)]
      | none => []) ++
     (match t.expires_at with
      | some v => [("expires_at", v)]
      | none => []) ++
     ("token_type", t.token_type) ::
     (match t.scope with
      | some v => [("scope", v)]
      | none => []))

/-- `JSON.stringify` on a `TokenData` value. -/
def stringifyTokenData (t : TokenData) : String :=
  ⟨'\x7b' :: fieldsChars (tokenFields t) ++ ['\x7d']⟩

/-- Parse one `"key":"value"` member. -/
def parseField (l : List Char) : Option ((String × String) × List Char) :=
  match l with
  | '"' :: rest =>
    match parseStrAux rest with
    | some (kcs, ':' :: '"' :: rest2) =>
      match parseStrAux rest2 with
      | some (vcs, rest3) => some ((⟨kcs⟩, ⟨vcs⟩), rest3)
      | none => none
    | _ => none
  | _ => none

/-- Parse the members of an object after its opening brace, up to and
including its closing brace; `fuel` bounds the number of members. -/
def parseFields : List Char → Nat → Option (List (String × String) × List Char)
  | _, 0 => none
  | l, fuel + 1 =>
    match parseField l with
    | none => none
    | some (kv, rest) =>
      match rest with
      | ',' :: more =>
        match parseFields more fuel with
        | some (kvs, r) => some (kv :: kvs, r)
        | none => none
      | '\x7d' :: tail => some ([kv], tail)
      | _ => none

/-- `JSON.parse` on the string-valued-object fragment of JSON that
`JSON.stringify` of a `TokenData` emits. -/
def parsePairs (s : String) : Option (List (String × String)) :=
  match s.data with
  | '\x7b' :: rest =>
    match parseFields rest rest.length with
    | some (kvs, []) => some kvs
    | _ => none
  | _ => none

/-- The `as TokenData` re-interpretation of a parsed object: read the
interface's fields out of the member list. -/
def tokenFromPairs (kvs : List (String × String)) : Option TokenData :=
  match kvs.lookup "access_token", kvs.lookup "token_type" with
  | some a, some ty =>
    some { access_token := a
           refresh_token := kvs.lookup "refresh_token"
           expires_at := kvs.lookup "expires_at"
           token_type := ty
           scope := kvs.lookup "scope" }
  | _, _ => none

/-- `JSON.parse(tokenJson) as TokenData`. -/
def parseTokenData (s : String) : Option TokenData :=
  (parsePairs s).bind tokenFromPairs

/-- The adapter's `getToken`: serialize the stored token, or `null`. -/
def adapterGetToken (stored : Option TokenData) : Option String :=
  stored.map stringifyTokenData

/-- The adapter's `saveToken`: the `TokenData` it hands the
caller-supplied storage for a given JSON string. -/
def adapterSaveToken (tokenJson : String) : Option TokenData :=
  parseTokenData tokenJson

end Calblend

namespace Calblend

/-- JavaScript falsiness of an optional string, characterised. -/
theorem jsFalsy_iff (o : Option String) :
    jsFalsy o = true ↔ o = none ∨ o = some "" := by
  cases o with
  | none => simp [jsFalsy]
  | some s => simp [jsFalsy, String.isEmpty_iff]

/-- A non-falsy optional string is `some` of its default-get. -/
theorem some_getD_of_not_falsy (o : Option String) (h : ¬ jsFalsy o = true) :
    o = some (o.getD "") := by
  cases o <;> simp_all [jsFalsy]

/-- C1, counterexample to the claim as stated: a header record in which
every one of the four required headers is present (none is missing),
yet `parseWebhookHeaders` fails with the malformed-notification error,
because the present channel-id value is the empty string and the code
tests JavaScript falsiness, not absence. -/
theorem parseWebhookHeaders_empty_header_cex :
    (getHeader emptyChannelIdHeaders "x-goog-channel-id").isSome = true ∧
    (getHeader emptyChannelIdHeaders "x-goog-resource-id").isSome = true ∧
    (getHeader emptyChannelIdHeaders "x-goog-resource-state").isSome = true ∧
    (getHeader emptyChannelIdHeaders "x-goog-resource-uri").isSome = true ∧
    parseWebhookHeaders emptyChannelIdHeaders =
      .error "Missing required Google webhook headers" :=
  ⟨rfl, rfl, rfl, rfl, rfl⟩

/-- C1 (amended): parsing fails with the malformed-notification error
exactly when one of the four required headers is missing or empty (an
array-valued header contributing its first element, an empty array
counting as missing); when parsing succeeds, the four required fields
equal the header values and each optional field is present exactly when
the corresponding optional header yields a value. -/
theorem parseWebhookHeaders_spec (headers : Headers) :
    (parseWebhookHeaders headers = .error "Missing required Google webhook headers" ↔
      (getHeader headers "x-goog-channel-id" = none ∨
        getHeader headers "x-goog-channel-id" = some "") ∨
      (getHeader headers "x-goog-resource-id" = none ∨
        getHeader headers "x-goog-resource-id" = some "") ∨
      (getHeader headers "x-goog-resource-state" = none ∨
        getHeader headers "x-goog-resource-state" = some "") ∨
      (getHeader headers "x-goog-resource-uri" = none ∨
        getHeader headers "x-goog-resource-uri" = some "")) ∧
    (∀ n, parseWebhookHeaders headers = .ok n →
      getHeader headers "x-goog-channel-id" = some n.channelId ∧
      getHeader headers "x-goog-resource-id" = some n.resourceId ∧
      getHeader headers "x-goog-resource-state" = some n.resourceState ∧
      getHeader headers "x-goog-resource-uri" = some n.resourceUri ∧
      n.channelToken = getHeader headers "x-goog-channel-token" ∧
      n.channelExpiration = getHeader headers "x-goog-channel-expiration" ∧
      n.messageNumber = getHeader headers "x-goog-message-number") := by
  constructor
  · unfold parseWebhookHeaders
    split
    next h =>
      simp only [Bool.or_eq_true, jsFalsy_iff] at h
      exact ⟨fun _ => by tauto, fun _ => rfl⟩
    next h =>
      simp only [Bool.or_eq_true, jsFalsy_iff] at h
      refine ⟨fun heq => absurd heq (by simp), fun hc => absurd ?_ h⟩
      tauto
  · intro n hn
    unfold parseWebhookHeaders at hn
    split at hn
    next => exact absurd hn (by simp)
    next h =>
      simp only [Bool.or_eq_true, not_or] at h
      obtain ⟨⟨⟨h1, h2⟩, h3⟩, h4⟩ := h
      injection hn with hn
      subst hn
      refine ⟨?_, ?_, ?_, ?_, rfl, rfl, rfl⟩
      · exact some_getD_of_not_falsy _ h1
      · exact some_getD_of_not_falsy _ h2
      · exact some_getD_of_not_falsy _ h3
      · exact some_getD_of_not_falsy _ h4

/-- Witness for C1 (amended) at a concrete successful parse. -/
theorem parseWebhookHeaders_spec_witness :
    getHeader okHeaders "x-goog-resource-uri" = some "u1" := by
  have h := (parseWebhookHeaders_spec okHeaders).2
    { channelId := "c1", channelToken := some "tok", channelExpiration := none,
      resourceId := "r1", resourceState := "exists", resourceUri := "u1",
      messageNumber := some "5" } rfl
  exact h.2.2.2.1

/-- C2: `needsRenewal` returns true exactly when the expiration instant
minus the current time is less than 24 hours (in milliseconds). -/
theorem needsRenewal_iff (e n : ℤ) :
    needsRenewal e n = true ↔ e - n < 24 * 60 * 60 * 1000 := by
  unfold needsRenewal
  rw [decide_eq_true_iff, div_lt_iff₀ (by norm_num : (0:ℚ) < 1000 * 60 * 60),
    show ((24 : ℚ) * (1000 * 60 * 60)) = ((24 * 60 * 60 * 1000 : ℤ) : ℚ) by norm_num]
  exact Int.cast_lt

/-- Witness for C2: a channel expiring in just under 24 hours needs
renewal. -/
theorem needsRenewal_iff_witness : needsRenewal 86399999 0 = true :=
  (needsRenewal_iff 86399999 0).mpr (by decide)

/-- C3, counterexample to the claim as stated: a well-formed `TokenData`
(it satisfies the TypeScript interface, whose `expires_at` field is
declared optional) that carries no `expires_at` and no `scope`. -/
theorem tokenData_expiresAt_absent :
    (TokenData.mk "tok" none none "Bearer" none).expires_at.isSome = false ∧
    (TokenData.mk "tok" none none "Bearer" none).scope.isSome = false :=
  ⟨rfl, rfl⟩

/-- C3 (amended): `TokenData` consists of exactly the fields
`access_token`, optional `refresh_token`, optional `expires_at`,
`token_type`, optional `scope`; the required `String` fields
`access_token` and `token_type` are always carried, and every
combination of the optional fields is representable. -/
theorem tokenData_fields :
    (∀ t : TokenData,
      t = ⟨t.access_token, t.refresh_token, t.expires_at, t.token_type, t.scope⟩) ∧
    (∀ a rt ea ty sc, (TokenData.mk a rt ea ty sc).access_token = a ∧
      (TokenData.mk a rt ea ty sc).refresh_token = rt ∧
      (TokenData.mk a rt ea ty sc).expires_at = ea ∧
      (TokenData.mk a rt ea ty sc).token_type = ty ∧
      (TokenData.mk a rt ea ty sc).scope = sc) :=
  ⟨fun _ => rfl, fun _ _ _ _ _ => ⟨rfl, rfl, rfl, rfl, rfl⟩⟩

/-- C4: a refresh whose response omits the refresh token retains the
previously stored refresh token. -/
theorem applyRefresh_preserves_refresh_token
    (stored : TokenData) (resp : RefreshResponse) (R : String)
    (hstored : stored.refresh_token = some R)
    (hresp : resp.refresh_token = none) :
    (applyRefresh stored resp).refresh_token = some R := by
  simp [applyRefresh, hresp, hstored]

/-- Witness for C4 at a concrete stored token and refresh response. -/
theorem applyRefresh_preserves_refresh_token_witness :
    (applyRefresh (TokenData.mk "old" (some "R0") none "Bearer" none)
      (RefreshResponse.mk "new" none (some "2030-01-01") "Bearer" none)).refresh_token
      = some "R0" :=
  applyRefresh_preserves_refresh_token _ _ "R0" rfl rfl

/-- The retry loop on an endpoint that always answers 503 exhausts its
whole budget: `retriesLeft + 1` attempts, then a network error. -/
theorem executeAux_all_503 (endpoint : Nat → AttemptOutcome)
    (h : ∀ i, endpoint i = .status 503) :
    ∀ retriesLeft attempt,
      executeAux endpoint attempt retriesLeft = (.error .network, retriesLeft + 1) := by
  intro retriesLeft
  induction retriesLeft with
  | zero => intro attempt; simp [executeAux, h, isSuccess, classifyError]
  | succ n ih =>
    intro attempt
    simp [executeAux, h, isSuccess, retryable, ih (attempt + 1)]

/-- C5: with `maxRetries = 3` against an endpoint answering 503 on every
attempt, `execute` makes exactly 4 attempts (1 initial + 3 retries) and
fails with a typed (network-class) error; it neither succeeds nor makes
a fifth attempt. -/
theorem execute_503_budget (endpoint : Nat → AttemptOutcome)
    (h : ∀ i, endpoint i = .status 503) :
    execute endpoint 3 = (.error .network, 4) :=
  executeAux_all_503 endpoint h 3 0

/-- Witness for C5 at the constant-503 endpoint. -/
theorem execute_503_budget_witness :
    execute (fun _ => .status 503) 3 = (.error .network, 4) :=
  execute_503_budget (fun _ => .status 503) (fun _ => rfl)

/-- C6: a `get` immediately after `put(k, v, ttl)` returns `v`; once the
ttl has elapsed the `get` returns absent; and in general the entry is
served exactly while `now < storedAt + ttl`. -/
theorem cache_coherence [BEq κ] [LawfulBEq κ] (c : CacheLayer κ α)
    (k : κ) (v : α) (ttl now : Nat) (httl : 0 < ttl) :
    cacheGet (cachePut c k v ttl now) k now = some v ∧
    (∀ later, now + ttl ≤ later → cacheGet (cachePut c k v ttl now) k later = none) ∧
    (∀ t, cacheGet (cachePut c k v ttl now) k t = some v ↔ t < now + ttl) := by
  refine ⟨?_, ?_, ?_⟩
  · simp [cacheGet, cachePut, List.lookup, servable]
    omega
  · intro later hlater
    simp [cacheGet, cachePut, List.lookup, servable]
    omega
  · intro t
    by_cases ht : t < now + ttl
    · simp [cacheGet, cachePut, List.lookup, servable, ht]
    · simp [cacheGet, cachePut, List.lookup, servable, ht]

/-- Witness for C6 at a concrete key, value, ttl and clock. -/
theorem cache_coherence_witness :
    cacheGet (cachePut ([] : CacheLayer String Nat) "k" 42 60 100) "k" 100 = some 42 ∧
    cacheGet (cachePut ([] : CacheLayer String Nat) "k" 42 60 100) "k" 160 = none := by
  have h := cache_coherence ([] : CacheLayer String Nat) "k" 42 60 100 (by decide)
  exact ⟨h.1, h.2.1 160 (by decide)⟩

/-- Lookup misses entirely in a list whose entries for the key were all
filtered away. -/
theorem lookup_filter_eq_none [BEq κ] [LawfulBEq κ] (l : List (κ × β)) (k : κ)
    (pred : κ × β → Bool) (h : ∀ b, pred (k, b) = false) :
    (l.filter pred).lookup k = none := by
  induction l with
  | nil => rfl
  | cons p t ih =>
    obtain ⟨a, b⟩ := p
    by_cases hpred : pred (a, b) = true
    · have hne : (k == a) = false := by
        by_cases hk : k = a
        · subst hk; rw [h b] at hpred; exact absurd hpred (by simp)
        · exact beq_false_of_ne hk
      simp [List.filter, hpred, List.lookup, hne, ih]
    · simp [List.filter, hpred, ih]

/-- C7: each of `createEvent`, `updateEvent`, `deleteEvent` on calendar
`cal` — whatever the provider's response, including an ambiguous
partial success — leaves every cache entry scoped to `cal` (in
particular every cached `listEvents` entry) absent on the next `get`. -/
theorem mutations_invalidate_calendar (st : SyncState α) (cal eventId : String)
    (r : MutationOutcome) (k : CacheKey) (now : Nat) (hk : k.calendarId = cal) :
    cacheGet (createEvent st cal r).1.cache k now = none ∧
    cacheGet (updateEvent st cal eventId r).1.cache k now = none ∧
    cacheGet (deleteEvent st cal eventId r).1.cache k now = none := by
  have hlookup : (invalidateCalendar st.cache cal).lookup k = none := by
    apply lookup_filter_eq_none
    intro b
    simp [hk]
  refine ⟨?_, ?_, ?_⟩ <;>
    simp [createEvent, updateEvent, deleteEvent, cacheGet, hlookup]

/-- Witness for C7: a cached `listEvents` entry for calendar `primary`
is gone right after a `createEvent` on `primary`. -/
theorem mutations_invalidate_calendar_witness :
    cacheGet
      (createEvent
        (SyncState.mk (cachePut ([] : CacheLayer CacheKey (List String))
          (CacheKey.mk "Google" "listEvents" "primary" "2024") ["e1"] 3600 0))
        "primary" .ambiguous).1.cache
      (CacheKey.mk "Google" "listEvents" "primary" "2024") 1 = none :=
  (mutations_invalidate_calendar _ "primary" "ev" .ambiguous
    (CacheKey.mk "Google" "listEvents" "primary" "2024") 1 rfl).1

/-- C8: the first delivery of a not-yet-seen (channelId, messageNumber)
pair with resource state `exists` is processed and returns the fetched
changed events, the pair enters the recent-notifications set, and any
delivery of a pair that is in the recent set is a no-op returning an
empty result. -/
theorem processNotification_idempotent (st : ProcessorState)
    (n : WebhookNotification) (evs : List α)
    (h1 : (n.channelId, n.messageNumber) ∉ st.recent)
    (h2 : n.resourceState = "exists") (h3 : 0 < st.maxRecent) :
    (processNotification st n evs).2 = evs ∧
    (n.channelId, n.messageNumber) ∈ (processNotification st n evs).1.recent ∧
    (∀ (st' : ProcessorState) (evs' : List α),
      (n.channelId, n.messageNumber) ∈ st'.recent →
      processNotification st' n evs' = (st', [])) := by
  refine ⟨?_, ?_, ?_⟩
  · simp [processNotification, h1, h2]
  · obtain ⟨m, hm⟩ : ∃ m, st.maxRecent = m + 1 :=
      ⟨st.maxRecent - 1, by omega⟩
    simp [processNotification, h1, h2, hm, List.take]
  · intro st' evs' hmem
    simp [processNotification, hmem]

/-- Witness for C8: delivering (channelId "c1", messageNumber "5")
twice yields the changed events once and the empty list on redelivery. -/
theorem processNotification_idempotent_witness :
    (processNotification (ProcessorState.mk [] 100)
      (WebhookNotification.mk "c1" none none "r1" "exists" "u" (some "5"))
      ["ev1"]).2 = ["ev1"] ∧
    (processNotification
      (processNotification (ProcessorState.mk [] 100)
        (WebhookNotification.mk "c1" none none "r1" "exists" "u" (some "5"))
        ["ev1"]).1
      (WebhookNotification.mk "c1" none none "r1" "exists" "u" (some "5"))
      ["ev2"]).2 = ([] : List String) := by
  have h := processNotification_idempotent (ProcessorState.mk [] 100)
    (WebhookNotification.mk "c1" none none "r1" "exists" "u" (some "5"))
    ["ev1"] (by simp) rfl (by decide)
  refine ⟨h.1, ?_⟩
  rw [h.2.2 _ ["ev2"] h.2.1]

/-- After at least one arrival on a fresh key, exactly one upstream
refresh has been issued and every arrived caller awaits it. -/
theorem arrivals_fresh (m : Nat) :
    arrivals freshKeyState (m + 1) = ⟨true, 1, m + 1⟩ := by
  induction m with
  | zero => rfl
  | succ p ih => rw [arrivals, ih]; rfl

/-- C9: `n ≥ 1` concurrent `getValidToken` calls for the same
(provider, account) key whose token is expiring issue exactly one
upstream refresh call, with all `n` callers awaiting (and hence
receiving the result of) that single in-flight refresh. -/
theorem singleFlight_refresh (n : Nat) (h : 1 ≤ n) :
    (arrivals freshKeyState n).refreshCalls = 1 ∧
    (arrivals freshKeyState n).awaiting = n ∧
    (arrivals freshKeyState n).inflight = true := by
  obtain ⟨m, rfl⟩ : ∃ m, n = m + 1 := ⟨n - 1, by omega⟩
  rw [arrivals_fresh]
  exact ⟨rfl, rfl, rfl⟩

/-- Witness for C9 at 10 concurrent callers. -/
theorem singleFlight_refresh_witness :
    (arrivals freshKeyState 10).refreshCalls = 1 ∧
    (arrivals freshKeyState 10).awaiting = 10 :=
  ⟨(singleFlight_refresh 10 (by decide)).1, (singleFlight_refresh 10 (by decide)).2.1⟩

/-- `hexVal` decodes the digit `hexDigit` encodes. -/
theorem hexVal_hexDigit (n : Nat) (h : n < 16) : hexVal (hexDigit n) = some n := by
  interval_cases n <;> rfl

/-- Parsing undoes the escaping of a single character. -/
theorem parseStrAux_escapeChar (c : Char) (tail : List Char) :
    parseStrAux (escapeChar c ++ tail) = consCont c (parseStrAux tail) := by
  by_cases h1 : c = '"'
  · subst h1; rfl
  by_cases h2 : c = '\\'
  · subst h2; rfl
  by_cases h3 : c = '\x08'
  · subst h3; rfl
  by_cases h4 : c = '\x09'
  · subst h4; rfl
  by_cases h5 : c = '\x0a'
  · subst h5; rfl
  by_cases h6 : c = '\x0c'
  · subst h6; rfl
  by_cases h7 : c = '\x0d'
  · subst h7; rfl
  by_cases h8 : c.toNat < 32
  · have e1 : hexVal (hexDigit (c.toNat / 16)) = some (c.toNat / 16) :=
      hexVal_hexDigit _ (by omega)
    have e2 : hexVal (hexDigit (c.toNat % 16)) = some (c.toNat % 16) :=
      hexVal_hexDigit _ (by omega)
    have h0 : hexVal '0' = some 0 := rfl
    have harith : c.toNat / 16 * 16 + c.toNat % 16 = c.toNat := by omega
    have hv : Char.ofNat (c.toNat / 16 * 16 + c.toNat % 16) = c := by
      rw [harith, Char.ofNat_toNat]
    simp only [escapeChar, if_neg h1, if_neg h2, if_neg h3, if_neg h4, if_neg h5,
      if_neg h6, if_neg h7, if_pos h8]
    simp [parseStrAux, h0, e1, e2, hv]
  · have hesc : escapeChar c = [c] := by
      simp [escapeChar, h1, h2, h3, h4, h5, h6, h7, h8]
    rw [hesc]
    show parseStrAux (c :: tail) = consCont c (parseStrAux tail)
    rw [parseStrAux.eq_def]
    split <;> simp_all

/-- Parsing undoes the escaping of a whole string body. -/
theorem parseStrAux_escape (cs tail : List Char) :
    parseStrAux (escapeList cs ++ '"' :: tail) = some (cs, tail) := by
  induction cs with
  | nil => rfl
  | cons c cs ih =>
    rw [escapeList, List.append_assoc, parseStrAux_escapeChar, ih]
    rfl

/-- Parsing undoes the rendering of one object member. -/
theorem parseField_render (k v : String) (rest : List Char) :
    parseField (renderField k v ++ rest) = some ((k, v), rest) := by
  have h : renderField k v ++ rest =
      '"' :: (escapeList k.data ++
        '"' :: (':' :: '"' :: (escapeList v.data ++ '"' :: rest))) := by
    simp [renderField, quoteChars]
  rw [h]
  simp only [parseField, parseStrAux_escape]

/-- Parsing undoes the rendering of a nonempty member list, given
enough fuel. -/
theorem parseFields_render (l : List (String × String)) :
    ∀ (rest : List Char) (fuel : Nat), l.length ≤ fuel → l ≠ [] →
      parseFields (fieldsChars l ++ '\x7d' :: rest) fuel = some (l, rest) := by
  induction l with
  | nil => intro rest fuel _ hne; exact absurd rfl hne
  | cons a t ih =>
    intro rest fuel hfuel _
    obtain ⟨f, rfl⟩ : ∃ f, fuel = f + 1 := ⟨fuel - 1, by simp at hfuel; omega⟩
    cases t with
    | nil =>
      show parseFields (renderField a.1 a.2 ++ '\x7d' :: rest) (f + 1) = some ([a], rest)
      simp [parseFields, parseField_render a.1 a.2]
    | cons b t' =>
      have hf : fieldsChars (a :: b :: t') =
          renderField a.1 a.2 ++ ',' :: fieldsChars (b :: t') := rfl
      have hrec : parseFields (fieldsChars (b :: t') ++ '\x7d' :: rest) f =
          some (b :: t', rest) :=
        ih rest f (by simp at hfuel ⊢; omega) (by simp)
      rw [hf, List.append_assoc]
      simp [parseFields, parseField_render a.1 a.2, hrec]

/-- Rendered members are at least as many characters as members. -/
theorem fieldsChars_le (l : List (String × String)) :
    l.length ≤ (fieldsChars l).length := by
  induction l with
  | nil => simp [fieldsChars, sepByComma]
  | cons a t ih =>
    cases t with
    | nil => simp [fieldsChars, sepByComma, renderField, quoteChars]
    | cons b t' =>
      have hf : fieldsChars (a :: b :: t') =
          renderField a.1 a.2 ++ ',' :: fieldsChars (b :: t') := rfl
      rw [hf]
      simp only [List.length_append, List.length_cons] at ih ⊢
      omega

/-- Reading the interface's fields back out of the enumerated members
recovers the record. -/
theorem tokenFromPairs_tokenFields (t : TokenData) :
    tokenFromPairs (tokenFields t) = some t := by
  obtain ⟨a, rt, ea, ty, sc⟩ := t
  cases rt <;> cases ea <;> cases sc <;> rfl

/-- `JSON.parse` after `JSON.stringify` is the identity on `TokenData`
records. -/
theorem parseTokenData_stringify (t : TokenData) :
    parseTokenData (stringifyTokenData t) = some t := by
  have hne : tokenFields t ≠ [] := by simp [tokenFields]
  have hparse : parseFields (fieldsChars (tokenFields t) ++ '\x7d' :: [])
      (fieldsChars (tokenFields t) ++ ['\x7d']).length = some (tokenFields t, []) := by
    refine parseFields_render _ [] _ ?_ hne
    have := fieldsChars_le (tokenFields t)
    simp only [List.length_append, List.length_cons, List.length_nil]
    omega
  show (parsePairs (stringifyTokenData t)).bind tokenFromPairs = some t
  have hpairs : parsePairs (stringifyTokenData t) = some (tokenFields t) := by
    show (match parseFields (fieldsChars (tokenFields t) ++ ['\x7d'])
        (fieldsChars (tokenFields t) ++ ['\x7d']).length with
      | some (kvs, []) => some kvs
      | _ => none) = some (tokenFields t)
    rw [hparse]
  rw [hpairs]
  exact tokenFromPairs_tokenFields t

/-- C10: the adapter `createClient` hands the native layer round-trips
tokens losslessly: for a stored token `t`, `getToken` returns the JSON
serialization of `t`, `saveToken` applied to that JSON string stores a
`TokenData` equal to `t`, and an absent token maps to `null`. -/
theorem createClient_token_roundtrip (t : TokenData) :
    adapterGetToken (some t) = some (stringifyTokenData t) ∧
    adapterSaveToken (stringifyTokenData t) = some t ∧
    adapterGetToken none = none :=
  ⟨rfl, parseTokenData_stringify t, rfl⟩

/-- Witness for C10 at a token whose fields exercise quote and
backslash escaping. -/
theorem createClient_token_roundtrip_witness :
    adapterSaveToken
      (stringifyTokenData (TokenData.mk "a\"b\\c" (some "r") none "Bearer" none)) =
      some (TokenData.mk "a\"b\\c" (some "r") none "Bearer" none) :=
  (createClient_token_roundtrip (TokenData.mk "a\"b\\c" (some "r") none "Bearer" none)).2.1

end Calblend
